import Mathlib

/-!
Verification development for the CF1 launchpad crowdfunding contract
(cf1-core/contracts/launchpad).  The definitions below are a shallow
embedding of the contract handlers in `lib.rs`, the rate limiter in
`rate_limit.rs` and the MathGuard share computation in `src/security.rs`.

Modelling conventions:
* Monetary values (`Uint128`), share counts (`u64`) and timestamps are
  embedded as `Nat`, with machine-width behaviour made explicit:
  - `cosmwasm_std::Uint128` arithmetic always checks for overflow
    (its `Add`/`Sub`/`Mul` impls panic on wrap), and a panic aborts the
    whole contract call; this is modelled by `addU128`/`subU128`/`mulU128`
    returning `ContractError.arithmeticAbort` when the result does not
    fit in 128 bits.
  - native `u64`/`u128` operators (`+`, `-`, `*`) are compiled with
    overflow checks in the standard CosmWasm build profile and likewise
    abort the call on overflow; `addU64`/`subU64` model this the same way.
  - Rust `as` casts between integer widths never abort; they truncate.
    `castU64`/`castU32` model them as reduction mod `2 ^ 64` / `2 ^ 32`.
* Addresses (`Addr`) are opaque identities; they are embedded as `Nat`.
* The contract stores exactly one record per `(proposal, investor)` key
  (`INVESTMENTS`) together with the investor list
  (`PROPOSAL_INVESTMENTS`); both are embedded as one ordered list of
  `Investment` records per campaign.  Each handler touches a single
  campaign (`process_expired_proposals` iterates campaigns one at a
  time, each iteration reading and writing only that campaign), so the
  embedded state is the state of one campaign.
* Metadata fields that no handler logic reads (asset details, documents,
  compliance info, the creator aggregate, string ids, response
  attributes) are omitted.  Error payload strings are likewise dropped.
-/

namespace CF1

/-- Opaque account identity (`cosmwasm_std::Addr`). -/
abbrev Addr := Nat

/-- Errors of `error.rs` (`ContractError`), without their string payloads,
plus `arithmeticAbort` for an aborted call caused by a native
checked-arithmetic panic (not a `ContractError` variant of the source),
and `stdNotFound` for a failing `Map::load` (`StdError::NotFound`). -/
inductive ContractError where
  | unauthorized
  | proposalNotActive
  | fundingPeriodTooShort
  | fundingPeriodTooLong
  | invalidTargetAmount
  | invalidTokenPrice
  | invalidTotalShares
  | investmentBelowMinimum
  | investmentExceedsAvailable
  | fundingDeadlinePassed
  | proposalNotFunded
  | tokensAlreadyMinted
  | tokensNotMinted
  | insufficientFunds
  | invalidSharesCalculation
  | proposalAlreadyFunded
  | noInvestmentsToRefund
  | maxProposalsExceeded (max : Nat)
  | maxInvestorsExceeded (max : Nat)
  | rateLimitExceeded (limit : Nat) (windowSeconds : Nat)
  | overflow
  | underflow
  | divisionByZero
  | stdNotFound
  | arithmeticAbort
  deriving DecidableEq, Repr

/-- Checked native `u64` addition; on overflow the call aborts. -/
def addU64 (a b : Nat) : Except ContractError Nat :=
  if a + b < 2 ^ 64 then .ok (a + b) else .error .arithmeticAbort

/-- Checked native `u64` subtraction; on underflow the call aborts. -/
def subU64 (a b : Nat) : Except ContractError Nat :=
  if b ≤ a then .ok (a - b) else .error .arithmeticAbort

/-- Checked `Uint128` (or native `u128`) addition. -/
def addU128 (a b : Nat) : Except ContractError Nat :=
  if a + b < 2 ^ 128 then .ok (a + b) else .error .arithmeticAbort

/-- Checked `Uint128` (or native `u128`) subtraction. -/
def subU128 (a b : Nat) : Except ContractError Nat :=
  if b ≤ a then .ok (a - b) else .error .arithmeticAbort

/-- Checked native `u128` multiplication. -/
def mulU128 (a b : Nat) : Except ContractError Nat :=
  if a * b < 2 ^ 128 then .ok (a * b) else .error .arithmeticAbort

/-- Rust `as u64` truncating cast. -/
def castU64 (a : Nat) : Nat := a % 2 ^ 64

/-- Rust `as u32` truncating cast. -/
def castU32 (a : Nat) : Nat := a % 2 ^ 32

/-- `state.rs` `FinancialTerms` (the unread `expected_apy` string is omitted). -/
structure FinancialTerms where
  targetAmount : Nat
  tokenPrice : Nat
  totalShares : Nat
  minimumInvestment : Nat
  fundingDeadline : Nat
  deriving DecidableEq, Repr

/-- `state.rs` `FundingStatus`. -/
structure FundingStatus where
  raisedAmount : Nat
  investorCount : Nat
  isFunded : Bool
  tokensMinted : Bool
  deriving DecidableEq, Repr

/-- `state.rs` `Timestamps`. -/
structure Timestamps where
  createdAt : Nat
  updatedAt : Nat
  fundingDeadline : Nat
  lockupEnd : Option Nat
  deriving DecidableEq, Repr

/-- `state.rs` `ProposalStatus`. -/
inductive ProposalStatus where
  | active
  | funded
  | completed
  | failed
  | cancelled
  deriving DecidableEq, Repr

/-- `state.rs` `Proposal`, restricted to the fields the handlers read. -/
structure Proposal where
  creator : Addr
  financialTerms : FinancialTerms
  fundingStatus : FundingStatus
  timestamps : Timestamps
  status : ProposalStatus
  deriving DecidableEq, Repr

/-- `state.rs` `InvestmentStatus`. -/
inductive InvestmentStatus where
  | pending
  | completed
  | refunded
  deriving DecidableEq, Repr

/-- `state.rs` `Investment` (the redundant `proposal_id` back-pointer is
omitted in the single-campaign state). -/
structure Investment where
  investor : Addr
  amount : Nat
  shares : Nat
  timestamp : Nat
  status : InvestmentStatus
  deriving DecidableEq, Repr

/-- `state.rs` `Config` (the unread `cw20_code_id` is omitted). -/
structure Config where
  admin : Addr
  platformFeeBps : Nat
  minFundingPeriodDays : Nat
  maxFundingPeriodDays : Nat
  lockupPeriodSeconds : Nat
  deriving DecidableEq, Repr

/-- External instructions emitted by the handlers: `BankMsg::Send`
transfers of `untrn` and CW20 `Mint` instructions. -/
inductive Msg where
  | bankSend (toAddress : Addr) (amount : Nat)
  | mintTokens (recipient : Addr) (amount : Nat)
  deriving DecidableEq, Repr

/-- Storage touched by the handlers for one campaign: the `PROPOSALS`
entry, the merged `INVESTMENTS` / `PROPOSAL_INVESTMENTS` records in
investor-list order, and the `TOKEN_CONTRACTS` entry. -/
structure CampaignState where
  proposal : Proposal
  investments : List Investment
  tokenContract : Option Addr
  deriving DecidableEq, Repr

/-- The record stored under `INVESTMENTS[(proposal, investor)]`. -/
def recordOf (invs : List Investment) (investor : Addr) : Option Investment :=
  invs.find? (fun inv => inv.investor = investor)

/-- Total of the `shares` fields of all investment records of a campaign. -/
def sumShares (invs : List Investment) : Nat :=
  (invs.map (fun inv => inv.shares)).sum

/-- `lib.rs` `calculate_shares` (lines 1297-1309): naive single integer
division of the amount by the token price, rejecting a zero result, then
a truncating `as u64` cast. -/
def calculate_shares (p : Proposal) (investmentAmount : Nat) : Except ContractError Nat :=
  if p.financialTerms.tokenPrice = 0 then .error .invalidTokenPrice
  else
    let shares := investmentAmount / p.financialTerms.tokenPrice
    if shares = 0 then .error .invalidSharesCalculation
    else .ok (castU64 shares)

/-- `lib.rs` `calculate_current_shares_sold` (lines 1311-1317): shares
sold derived from `raised_amount / token_price` with a truncating cast. -/
def calculate_current_shares_sold (p : Proposal) : Nat :=
  if p.financialTerms.tokenPrice = 0 then 0
  else castU64 (p.fundingStatus.raisedAmount / p.financialTerms.tokenPrice)

/-- The `INVESTMENTS.update` closure of `execute_invest` (lines 362-368):
add amount and shares to the existing record for the sender (checked
`Uint128` and checked native `u64` additions) and refresh its timestamp. -/
def updateInvestment (invs : List Investment) (sender : Addr) (amount shares now : Nat) :
    Except ContractError (List Investment) :=
  match invs with
  | [] => .ok []
  | inv :: rest =>
    if inv.investor = sender then
      match addU128 inv.amount amount with
      | .error e => .error e
      | .ok amount2 =>
        match addU64 inv.shares shares with
        | .error e => .error e
        | .ok shares2 =>
          .ok ({ inv with amount := amount2, shares := shares2, timestamp := now } :: rest)
    else
      match updateInvestment rest sender amount shares now with
      | .error e => .error e
      | .ok rest2 => .ok (inv :: rest2)

/-- `lib.rs` `execute_invest` (lines 296-438).  The rate-limiter call on
line 303 reads and writes only the disjoint rate-limit storage and can
only reject the call, so it is modelled separately (see `RateLimiter`
below); the creator-aggregate update on funding completion touches only
the omitted `CREATORS` store.  `PROPOSAL_INVESTOR_COUNT` is never
written anywhere in the contract, so its `may_load` on line 347 always
falls back to `funding_status.investor_count as u32`. -/
def execute_invest (cfg : Config) (st : CampaignState) (sender : Addr) (amount now : Nat) :
    Except ContractError CampaignState :=
  let p := st.proposal
  if p.status ≠ ProposalStatus.active then .error .proposalNotActive
  else if p.financialTerms.fundingDeadline < now then .error .fundingDeadlinePassed
  else if p.fundingStatus.isFunded then .error .proposalAlreadyFunded
  else if amount = 0 then .error .insufficientFunds
  else if amount < p.financialTerms.minimumInvestment then .error .investmentBelowMinimum
  else
    match calculate_shares p amount with
    | .error e => .error e
    | .ok shares =>
      match addU64 (calculate_current_shares_sold p) shares with
      | .error e => .error e
      | .ok soldPlusNew =>
        if p.financialTerms.totalShares < soldPlusNew then .error .investmentExceedsAvailable
        else if recordOf st.investments sender = none
                ∧ 500 ≤ castU32 p.fundingStatus.investorCount then
          .error (.maxInvestorsExceeded 500)
        else
          match
            ((match recordOf st.investments sender with
              | some _ =>
                match updateInvestment st.investments sender amount shares now with
                | .error e => .error e
                | .ok invs2 => .ok (invs2, p.fundingStatus.investorCount)
              | none =>
                match addU64 p.fundingStatus.investorCount 1 with
                | .error e => .error e
                | .ok count2 =>
                  .ok (st.investments ++
                        [{ investor := sender, amount := amount, shares := shares,
                           timestamp := now, status := InvestmentStatus.pending }], count2)) :
              Except ContractError (List Investment × Nat)) with
          | .error e => .error e
          | .ok (invs2, count2) =>
            match addU128 p.fundingStatus.raisedAmount amount with
            | .error e => .error e
            | .ok raised2 =>
              if p.financialTerms.targetAmount ≤ raised2 then
                match addU64 now cfg.lockupPeriodSeconds with
                | .error e => .error e
                | .ok lockupEnd2 =>
                  .ok { st with
                        proposal := { p with
                          fundingStatus := { raisedAmount := raised2, investorCount := count2,
                                             isFunded := true,
                                             tokensMinted := p.fundingStatus.tokensMinted },
                          status := ProposalStatus.funded,
                          timestamps := { p.timestamps with
                                          lockupEnd := some lockupEnd2, updatedAt := now } },
                        investments := invs2 }
              else
                .ok { st with
                      proposal := { p with
                        fundingStatus := { p.fundingStatus with
                                           raisedAmount := raised2, investorCount := count2 },
                        timestamps := { p.timestamps with updatedAt := now } },
                      investments := invs2 }

/-- The investment-status sweep of `execute_process_expired_proposals`
(lines 799-811): every `Pending` investment of the failed campaign is
marked `Refunded`; no other field changes and no transfer is emitted. -/
def markRefunded (invs : List Investment) : List Investment :=
  invs.map (fun inv =>
    if inv.status = InvestmentStatus.pending then { inv with status := InvestmentStatus.refunded }
    else inv)

/-- `lib.rs` `execute_process_expired_proposals` (lines 766-823), body of
the per-campaign iteration: admin-only; an `Active` campaign whose
deadline has passed without funding is marked `Failed` and its pending
investments are marked `Refunded`.  Returns the new state, the emitted
messages (none) and the processed count for this campaign. -/
def execute_process_expired_proposals (cfg : Config) (st : CampaignState)
    (sender : Addr) (now : Nat) :
    Except ContractError (CampaignState × List Msg × Nat) :=
  if sender ≠ cfg.admin then .error .unauthorized
  else if st.proposal.status = ProposalStatus.active
          ∧ st.proposal.financialTerms.fundingDeadline < now
          ∧ st.proposal.fundingStatus.isFunded = false then
    .ok ({ st with
           proposal := { st.proposal with
                         status := ProposalStatus.failed,
                         timestamps := { st.proposal.timestamps with updatedAt := now } },
           investments := markRefunded st.investments }, [], 1)
  else .ok (st, [], 0)

/-- The per-investor refund loop of `execute_refund_investors`
(lines 476-506): for each `Pending` investment, emit a `BankMsg::Send`
of its amount, mark it `Refunded`, and accumulate the total (checked
`Uint128`) and the count.  Arguments after the list are the message,
total and count accumulators. -/
def refundLoop : List Investment → List Msg → Nat → Nat →
    Except ContractError (List Investment × List Msg × Nat × Nat)
  | [], msgs, total, count => .ok ([], msgs, total, count)
  | inv :: rest, msgs, total, count =>
    if inv.status = InvestmentStatus.pending then
      match addU128 total inv.amount with
      | .error e => .error e
      | .ok total2 =>
        match addU64 count 1 with
        | .error e => .error e
        | .ok count2 =>
          match refundLoop rest (msgs ++ [Msg.bankSend inv.investor inv.amount]) total2 count2 with
          | .error e => .error e
          | .ok (rest2, msgs2, total3, count3) =>
            .ok ({ inv with status := InvestmentStatus.refunded } :: rest2, msgs2, total3, count3)
    else
      match refundLoop rest msgs total count with
      | .error e => .error e
      | .ok (rest2, msgs2, total3, count3) => .ok (inv :: rest2, msgs2, total3, count3)

/-- `lib.rs` `execute_refund_investors` (lines 440-523).  Returns the new
state, the refund transfers, the total refunded and the refunded count. -/
def execute_refund_investors (cfg : Config) (st : CampaignState) (sender : Addr) (now : Nat) :
    Except ContractError (CampaignState × List Msg × Nat × Nat) :=
  let p := st.proposal
  if sender ≠ p.creator ∧ sender ≠ cfg.admin then .error .unauthorized
  else
    match
      ((match p.status with
        | ProposalStatus.failed => .ok p
        | ProposalStatus.cancelled => .ok p
        | ProposalStatus.active =>
          if now ≤ p.financialTerms.fundingDeadline then .error .fundingDeadlinePassed
          else .ok { p with status := ProposalStatus.failed }
        | _ => .error .proposalNotActive) : Except ContractError Proposal) with
    | .error e => .error e
    | .ok p2 =>
      if st.investments = [] then .error .noInvestmentsToRefund
      else
        match refundLoop st.investments [] 0 0 with
        | .error e => .error e
        | .ok (invs2, msgs, total, count) =>
          if msgs = [] then .error .noInvestmentsToRefund
          else
            .ok ({ st with
                   proposal := { p2 with
                                 fundingStatus := { p2.fundingStatus with raisedAmount := 0 },
                                 timestamps := { p2.timestamps with updatedAt := now } },
                   investments := invs2 }, msgs, total, count)

/-- The per-investor mint loop of `execute_distribute_tokens`
(lines 641-674): for each `Pending` investment, emit a CW20 `Mint` of its
share count, mark it `Completed`, and accumulate the total distributed
(native `u64` addition) and the count. -/
def distributeLoop : List Investment → List Msg → Nat → Nat →
    Except ContractError (List Investment × List Msg × Nat × Nat)
  | [], msgs, total, count => .ok ([], msgs, total, count)
  | inv :: rest, msgs, total, count =>
    if inv.status = InvestmentStatus.pending then
      match addU64 total inv.shares with
      | .error e => .error e
      | .ok total2 =>
        match addU64 count 1 with
        | .error e => .error e
        | .ok count2 =>
          match distributeLoop rest (msgs ++ [Msg.mintTokens inv.investor inv.shares]) total2 count2 with
          | .error e => .error e
          | .ok (rest2, msgs2, total3, count3) =>
            .ok ({ inv with status := InvestmentStatus.completed } :: rest2, msgs2, total3, count3)
    else
      match distributeLoop rest msgs total count with
      | .error e => .error e
      | .ok (rest2, msgs2, total3, count3) => .ok (inv :: rest2, msgs2, total3, count3)

/-- `lib.rs` `execute_distribute_tokens` (lines 606-723).  The platform
fee is `raised_amount * platform_fee_bps / 10000` with a native
(abort-on-overflow) `u128` multiplication, the creator amount is the
native subtraction of the fee from `raised_amount`; the creator transfer
is pushed only when positive and the fee transfer only when positive. -/
def execute_distribute_tokens (cfg : Config) (st : CampaignState) (sender : Addr) (now : Nat) :
    Except ContractError (CampaignState × List Msg) :=
  let p := st.proposal
  if sender ≠ p.creator ∧ sender ≠ cfg.admin then .error .unauthorized
  else if p.fundingStatus.tokensMinted = false then .error .tokensNotMinted
  else if p.fundingStatus.isFunded = false then .error .proposalNotFunded
  else
    match st.tokenContract with
    | none => .error .stdNotFound
    | some _ =>
      if st.investments = [] then .error .noInvestmentsToRefund
      else
        match distributeLoop st.investments [] 0 0 with
        | .error e => .error e
        | .ok (invs2, mintMsgs, _totalDistributed, _count) =>
          if mintMsgs = [] then .error .noInvestmentsToRefund
          else
            match mulU128 p.fundingStatus.raisedAmount cfg.platformFeeBps with
            | .error e => .error e
            | .ok product =>
              let platformFee := product / 10000
              match subU128 p.fundingStatus.raisedAmount platformFee with
              | .error e => .error e
              | .ok creatorAmount =>
                .ok ({ st with
                       proposal := { p with
                                     status := ProposalStatus.completed,
                                     timestamps := { p.timestamps with updatedAt := now } },
                       investments := invs2 },
                     mintMsgs
                       ++ (if 0 < creatorAmount then [Msg.bankSend p.creator creatorAmount] else [])
                       ++ (if 0 < platformFee then [Msg.bankSend cfg.admin platformFee] else []))

/-- `lib.rs` `execute_cancel_proposal` (lines 266-293): creator or admin,
and only while the campaign is `Active`. -/
def execute_cancel_proposal (cfg : Config) (st : CampaignState) (sender : Addr) :
    Except ContractError CampaignState :=
  let p := st.proposal
  if p.creator ≠ sender ∧ cfg.admin ≠ sender then .error .unauthorized
  else if p.status ≠ ProposalStatus.active then .error .proposalNotActive
  else .ok { st with proposal := { p with status := ProposalStatus.cancelled } }

/-- `security.rs` `AccessControl::can_modify_proposal` (lines 46-48). -/
def canModifyProposal (cfg : Config) (p : Proposal) (sender : Addr) : Bool :=
  (cfg.admin = sender) || (p.creator = sender)

/-- `security.rs` `AccessControl::can_cancel_proposal` (lines 51-71); the
source always returns `Ok`, so the embedding returns the `Bool` directly
(the unused `env` parameter is dropped). -/
def canCancelProposal (cfg : Config) (p : Proposal) (sender : Addr) : Bool :=
  if !canModifyProposal cfg p sender then false
  else
    match p.status with
    | ProposalStatus.active => true
    | ProposalStatus.funded => cfg.admin = sender
    | _ => false

/-- `lib.rs` `execute_create_proposal` (lines 123-227), restricted to the
validation and the constructed proposal.  `creatorProposalCount` is the
`CREATOR_PROPOSAL_COUNT` entry for the sender (0 when absent); the
rate-limiter call and the creator-aggregate upsert touch only disjoint
storage and are omitted.  The funding-duration computation performs the
unguarded native `u64` subtraction `funding_deadline - current_time`. -/
def execute_create_proposal (cfg : Config) (creatorProposalCount : Nat) (sender : Addr)
    (terms : FinancialTerms) (now : Nat) : Except ContractError Proposal :=
  if 10 ≤ creatorProposalCount then .error (.maxProposalsExceeded 10)
  else
    match subU64 terms.fundingDeadline now with
    | .error e => .error e
    | .ok diff =>
      let fundingDurationDays := diff / (24 * 60 * 60)
      if fundingDurationDays < cfg.minFundingPeriodDays then .error .fundingPeriodTooShort
      else if cfg.maxFundingPeriodDays < fundingDurationDays then .error .fundingPeriodTooLong
      else if terms.targetAmount = 0 then .error .invalidTargetAmount
      else if terms.tokenPrice = 0 then .error .invalidTokenPrice
      else if terms.totalShares = 0 then .error .invalidTotalShares
      else
        .ok { creator := sender,
              financialTerms := terms,
              fundingStatus := { raisedAmount := 0, investorCount := 0,
                                 isFunded := false, tokensMinted := false },
              timestamps := { createdAt := now, updatedAt := now,
                              fundingDeadline := terms.fundingDeadline, lockupEnd := none },
              status := ProposalStatus.active }

/-- `security.rs` `MathGuard::safe_mul_u128` (lines 243-247): checked
`Uint128` multiplication reported as `ContractError::Overflow`. -/
def safe_mul_u128 (a b : Nat) : Except ContractError Nat :=
  if a * b < 2 ^ 128 then .ok (a * b) else .error .overflow

/-- `security.rs` `MathGuard::safe_div` (lines 250-257). -/
def safe_div (a b : Nat) : Except ContractError Nat :=
  if b = 0 then .error .divisionByZero else .ok (a / b)

/-- `security.rs` `MathGuard::safe_div_u128` (lines 260-267). -/
def safe_div_u128 (a b : Nat) : Except ContractError Nat :=
  if b = 0 then .error .divisionByZero else .ok (a / b)

/-- `security.rs` `MathGuard::calculate_shares_precise` (lines 282-309):
scale the amount by the precision factor (checked), divide by the unit
price, divide the result by the precision factor again, reject a zero
result and a result that does not fit in `u64`. -/
def calculate_shares_precise (investmentAmount tokenPrice precisionFactor : Nat) :
    Except ContractError Nat :=
  if tokenPrice = 0 then .error .invalidTokenPrice
  else
    match safe_mul_u128 investmentAmount precisionFactor with
    | .error e => .error e
    | .ok scaledInvestment =>
      match safe_div scaledInvestment tokenPrice with
      | .error e => .error e
      | .ok sharesScaled =>
        match safe_div_u128 sharesScaled precisionFactor with
        | .error e => .error e
        | .ok sharesFinal =>
          if sharesFinal = 0 then .error .invalidSharesCalculation
          else if 2 ^ 64 - 1 < sharesFinal then .error .overflow
          else .ok sharesFinal

/-- `rate_limit.rs` `UserOperations` (lines 34-42). -/
structure UserOperations where
  windowStart : Nat
  operationCount : Nat
  lastOperation : Nat
  deriving DecidableEq, Repr

/-- `rate_limit.rs` `RateLimiter::check_operation_limit` (lines 143-189)
for one `(user, operation)` key: `ops` is the stored `USER_OPERATIONS`
entry (`none` when absent).  Within a live window the counter is checked
against the limit and incremented; once the window has elapsed a new
window starts with count 1.  The `operation_count + 1` increment cannot
overflow its `u32` because it is guarded by the limit check. -/
def checkOperationLimit (ops : Option UserOperations)
    (currentTime maxOperations windowSeconds : Nat) :
    Except ContractError UserOperations :=
  match ops with
  | some u =>
    match addU64 u.windowStart windowSeconds with
    | .error e => .error e
    | .ok windowEnd =>
      if currentTime < windowEnd then
        if maxOperations ≤ u.operationCount then
          .error (.rateLimitExceeded maxOperations windowSeconds)
        else
          .ok { windowStart := u.windowStart, operationCount := u.operationCount + 1,
                lastOperation := currentTime }
      else
        .ok { windowStart := currentTime, operationCount := 1, lastOperation := currentTime }
  | none =>
    .ok { windowStart := currentTime, operationCount := 1, lastOperation := currentTime }

/-- A sequence of throttled calls at the given times, each one applying
`checkOperationLimit` and storing its result, stopping at the first
rejection. -/
def runCalls (ops : Option UserOperations) (times : List Nat)
    (maxOperations windowSeconds : Nat) :
    Except ContractError (Option UserOperations) :=
  match times with
  | [] => .ok ops
  | t :: rest =>
    match checkOperationLimit ops t maxOperations windowSeconds with
    | .error e => .error e
    | .ok u => runCalls (some u) rest maxOperations windowSeconds

/-- One invest request folded into the campaign state: a rejected call
reverts, leaving the state unchanged.  A request is
`(sender, amount, now)`. -/
def investStep (cfg : Config) (st : CampaignState) (r : Addr × Nat × Nat) : CampaignState :=
  match execute_invest cfg st r.1 r.2.1 r.2.2 with
  | .ok st2 => st2
  | .error _ => st

/-! ### Shared concrete fixtures -/

/-- A configuration with the default platform fee (250 bps) and lockup
(365 days). -/
def sampleConfig : Config :=
  { admin := 200, platformFeeBps := 250, minFundingPeriodDays := 7,
    maxFundingPeriodDays := 120, lockupPeriodSeconds := 31536000 }

/-- The campaign of Scenario A and Scenario B: target 5,000,000,000,000,
unit price 1,000,000,000, 5000 shares, minimum investment 1,000,000,000,
deadline 10 days (864000 seconds) after creation at time 0. -/
def scenarioProposal : Proposal :=
  { creator := 100,
    financialTerms := { targetAmount := 5000000000000, tokenPrice := 1000000000,
                        totalShares := 5000, minimumInvestment := 1000000000,
                        fundingDeadline := 864000 },
    fundingStatus := { raisedAmount := 0, investorCount := 0,
                       isFunded := false, tokensMinted := false },
    timestamps := { createdAt := 0, updatedAt := 0, fundingDeadline := 864000,
                    lockupEnd := none },
    status := ProposalStatus.active }

/-- Fresh Scenario B campaign state. -/
def scenarioState : CampaignState :=
  { proposal := scenarioProposal, investments := [], tokenContract := none }

/-- Decidable equality of handler results, used to evaluate the embedded
code on concrete inputs. -/
instance {ε α : Type} [DecidableEq ε] [DecidableEq α] : DecidableEq (Except ε α) := fun a b =>
  match a, b with
  | .ok x, .ok y => if h : x = y then .isTrue (by rw [h]) else .isFalse (by simp [h])
  | .error x, .error y => if h : x = y then .isTrue (by rw [h]) else .isFalse (by simp [h])
  | .ok _, .error _ => .isFalse (by simp)
  | .error _, .ok _ => .isFalse (by simp)

/-- A campaign whose unit price is 1,000,000. -/
def priceMillionProposal : Proposal :=
  { scenarioProposal with
    financialTerms := { scenarioProposal.financialTerms with tokenPrice := 1000000 } }

/-- A funded Scenario campaign on which tokens have not yet been minted. -/
def fundedProposal : Proposal :=
  { scenarioProposal with
    fundingStatus := { raisedAmount := 5000000000000, investorCount := 1,
                       isFunded := true, tokensMinted := false },
    status := ProposalStatus.funded }

/-- A Scenario B style campaign state with two pending investments
totalling 1,500,000,000,000, after the 10-day deadline has passed. -/
def scenarioBFunded : CampaignState :=
  { proposal := { scenarioProposal with
      fundingStatus := { raisedAmount := 1500000000000, investorCount := 2,
                         isFunded := false, tokensMinted := false } },
    investments :=
      [ { investor := 1, amount := 1000000000000, shares := 1000,
          timestamp := 100, status := InvestmentStatus.pending },
        { investor := 2, amount := 500000000000, shares := 500,
          timestamp := 200, status := InvestmentStatus.pending } ],
    tokenContract := none }

/-- The funded, minted Scenario campaign with its token contract recorded
and one pending investment of the full 5,000,000,000,000 raise. -/
def mintedState : CampaignState :=
  { proposal := { scenarioProposal with
      fundingStatus := { raisedAmount := 5000000000000, investorCount := 1,
                         isFunded := true, tokensMinted := true },
      timestamps := { scenarioProposal.timestamps with lockupEnd := some 31536000 },
      status := ProposalStatus.funded },
    investments := [ { investor := 1, amount := 5000000000000, shares := 5000,
                       timestamp := 100, status := InvestmentStatus.pending } ],
    tokenContract := some 77 }

/-- The state produced by distributing `mintedState`. -/
def mintedStateAfter : CampaignState :=
  { proposal := { mintedState.proposal with
      status := ProposalStatus.completed,
      timestamps := { mintedState.proposal.timestamps with updatedAt := 900000 } },
    investments := [ { investor := 1, amount := 5000000000000, shares := 5000,
                       timestamp := 100, status := InvestmentStatus.completed } ],
    tokenContract := some 77 }

/-- Scenario B state after its two investments of 1,000,000,000,000 and
500,000,000,000. -/
def scenarioBInvested : CampaignState :=
  investStep sampleConfig
    (investStep sampleConfig scenarioState (1, 1000000000000, 100))
    (2, 500000000000, 200)

/-- Scenario B state after `process_expired_campaigns` runs at time
864001, slightly past the 10-day deadline. -/
def scenarioBProcessed : CampaignState :=
  match execute_process_expired_proposals sampleConfig scenarioBInvested 200 864001 with
  | .ok (st, _, _) => st
  | .error _ => scenarioBInvested

/-- A campaign with unit price 3, used to exhibit rounding loss. -/
def priceThreeState : CampaignState :=
  { proposal := { scenarioProposal with
      financialTerms := { targetAmount := 1000000, tokenPrice := 3, totalShares := 100,
                          minimumInvestment := 1, fundingDeadline := 1000 } },
    investments := [], tokenContract := none }

/-- State after the investor invests 5 at time 10. -/
def seqState1 : CampaignState := investStep sampleConfig priceThreeState (1, 5, 10)

/-- State after the investor then invests another 5 at time 20. -/
def seqState2 : CampaignState := investStep sampleConfig seqState1 (1, 5, 20)

/-- State after a single investment of 10 at time 10 from the same
starting state. -/
def combState : CampaignState := investStep sampleConfig priceThreeState (1, 10, 10)

/-- Inductive invariant relating the recorded share totals to the raised
amount and the shares cap: the sum of recorded shares is bounded by the
untruncated `raised / price` quotient, that quotient never exceeds the
cap by more than one, and the share total respects the cap. -/
def SharesInv (st : CampaignState) : Prop :=
  sumShares st.investments
      ≤ st.proposal.fundingStatus.raisedAmount / st.proposal.financialTerms.tokenPrice
  ∧ st.proposal.fundingStatus.raisedAmount / st.proposal.financialTerms.tokenPrice
      ≤ st.proposal.financialTerms.totalShares + 1
  ∧ sumShares st.investments ≤ st.proposal.financialTerms.totalShares

/-- The fresh campaign used to break the cap: unit price 2, cap at
`u64::MAX` shares, target far away. -/
def hugeSharesState : CampaignState :=
  { proposal := {
      creator := 100,
      financialTerms := { targetAmount := 2 ^ 127, tokenPrice := 2,
                          totalShares := 2 ^ 64 - 1, minimumInvestment := 1,
                          fundingDeadline := 1000 },
      fundingStatus := { raisedAmount := 0, investorCount := 0,
                         isFunded := false, tokensMinted := false },
      timestamps := { createdAt := 0, updatedAt := 0, fundingDeadline := 1000,
                      lockupEnd := none },
      status := ProposalStatus.active },
    investments := [], tokenContract := none }

/-- `hugeSharesState` after accepted investments of `2^64 + 1` and
`2^64 - 1` by two investors. -/
def hugeSharesState2 : CampaignState :=
  investStep sampleConfig
    (investStep sampleConfig hugeSharesState (1, 2 ^ 64 + 1, 10))
    (2, 2 ^ 64 - 1, 10)

/-! ### Arithmetic helper lemmas -/

/-- Sum of floors is at most the floor of the sum. -/
theorem div_add_div_le (a b c : Nat) : a / c + b / c ≤ (a + b) / c := by
  rcases Nat.eq_zero_or_pos c with hc | hc
  · simp [hc]
  · rw [Nat.le_div_iff_mul_le hc, Nat.add_mul]
    exact Nat.add_le_add (Nat.div_mul_le_self a c) (Nat.div_mul_le_self b c)

/-- The floor of the sum exceeds the sum of floors by at most one. -/
theorem div_add_le_div_succ (a b c : Nat) : (a + b) / c ≤ a / c + b / c + 1 := by
  rcases Nat.eq_zero_or_pos c with hc | hc
  · simp [hc]
  · rw [Nat.add_div hc]
    split <;> omega

/-! ### C9: create_campaign with a past funding deadline -/

/-- C9.  For every input whose funding deadline is strictly earlier than
the current block time (and whose creator is below the proposal cap, so
that the duration computation is reached), `execute_create_proposal`
aborts in the unguarded unsigned subtraction
`funding_deadline - current_time` and in particular never returns the
too-short-funding-period validation error: the operation is not total
over such inputs. -/
theorem create_proposal_past_deadline_underflow (cfg : Config) (count : Nat)
    (sender : Addr) (terms : FinancialTerms) (now : Nat)
    (hcount : count < 10) (hpast : terms.fundingDeadline < now) :
    execute_create_proposal cfg count sender terms now = .error .arithmeticAbort
    ∧ execute_create_proposal cfg count sender terms now ≠ .error .fundingPeriodTooShort := by
  have h10 : ¬ (10 ≤ count) := by omega
  have hsub : ¬ (now ≤ terms.fundingDeadline) := by omega
  unfold execute_create_proposal subU64
  simp [h10, hsub]

/-- Witness for C9: a creator with no prior proposals submitting a
deadline of 5 at block time 10. -/
theorem create_proposal_past_deadline_underflow_witness :
    execute_create_proposal sampleConfig 0 5
        { targetAmount := 1, tokenPrice := 1, totalShares := 1,
          minimumInvestment := 1, fundingDeadline := 5 } 10 = .error .arithmeticAbort
    ∧ execute_create_proposal sampleConfig 0 5
        { targetAmount := 1, tokenPrice := 1, totalShares := 1,
          minimumInvestment := 1, fundingDeadline := 5 } 10 ≠ .error .fundingPeriodTooShort :=
  create_proposal_past_deadline_underflow sampleConfig 0 5
    { targetAmount := 1, tokenPrice := 1, totalShares := 1,
      minimumInvestment := 1, fundingDeadline := 5 } 10 (by decide) (by decide)

/-! ### C6: the two share-computation paths agree -/

/-- Success characterization of the naive `calculate_shares` path. -/
theorem calculate_shares_ok (p : Proposal) (amount s : Nat) :
    calculate_shares p amount = .ok s ↔
      p.financialTerms.tokenPrice ≠ 0
      ∧ amount / p.financialTerms.tokenPrice ≠ 0
      ∧ castU64 (amount / p.financialTerms.tokenPrice) = s := by
  unfold calculate_shares
  by_cases h0 : p.financialTerms.tokenPrice = 0
  · simp [h0]
  · by_cases hq : amount / p.financialTerms.tokenPrice = 0
    · simp [h0, hq]
    · simp [h0, hq, eq_comm]

/-- Success characterization of `MathGuard::calculate_shares_precise`. -/
theorem calculate_shares_precise_ok (amount price f s : Nat) :
    calculate_shares_precise amount price f = .ok s ↔
      price ≠ 0 ∧ amount * f < 2 ^ 128 ∧ f ≠ 0
      ∧ amount * f / price / f ≠ 0
      ∧ ¬ (2 ^ 64 - 1 < amount * f / price / f)
      ∧ amount * f / price / f = s := by
  unfold calculate_shares_precise safe_mul_u128 safe_div safe_div_u128
  by_cases h0 : price = 0
  · simp [h0]
  · rw [if_neg h0]
    by_cases hmul : amount * f < 2 ^ 128
    · rw [if_pos hmul]
      dsimp only
      rw [if_neg h0]
      dsimp only
      by_cases hf : f = 0
      · rw [if_pos hf]
        simp [h0, hf]
      · rw [if_neg hf]
        dsimp only
        by_cases hz : amount * f / price / f = 0
        · rw [if_pos hz]
          simp [h0, hf, hz]
        · rw [if_neg hz]
          by_cases hcap : 2 ^ 64 - 1 < amount * f / price / f
          · rw [if_pos hcap]
            simp [h0, hf, hz]
            omega
          · rw [if_neg hcap]
            simp [h0, hf, hz]
            omega
    · rw [if_neg hmul]
      dsimp only
      simp [h0]
      omega

/-- C6.  On every input where both paths are defined (both return a
value), the naive single-division `calculate_shares` used by `invest`
and the precision-scaled `MathGuard::calculate_shares_precise` compute
the same share count, for every precision factor. -/
theorem calculate_shares_agree (p : Proposal) (amount f s1 s2 : Nat)
    (h1 : calculate_shares p amount = .ok s1)
    (h2 : calculate_shares_precise amount p.financialTerms.tokenPrice f = .ok s2) :
    s1 = s2 := by
  rw [calculate_shares_ok] at h1
  rw [calculate_shares_precise_ok] at h2
  obtain ⟨h0, hq, hs1⟩ := h1
  obtain ⟨-, -, hf, -, hcap, hs2⟩ := h2
  have hdd : amount * f / p.financialTerms.tokenPrice / f
      = amount / p.financialTerms.tokenPrice := by
    rw [Nat.div_div_eq_div_mul]
    exact Nat.mul_div_mul_right amount _ (Nat.pos_of_ne_zero hf)
  rw [hdd] at hcap hs2
  have hlt : amount / p.financialTerms.tokenPrice < 2 ^ 64 := by omega
  rw [← hs1, ← hs2, castU64, Nat.mod_eq_of_lt hlt]

/-! ### C5: cancellation of a Funded campaign -/

/-- Counterexample to C5 as stated: the admin cancels a Funded campaign
with `tokens_minted = false`, and `execute_cancel_proposal` rejects the
call with the not-active state error instead of transitioning the
campaign to Cancelled. -/
theorem cancel_funded_admin_cex :
    fundedProposal.status = ProposalStatus.funded
    ∧ fundedProposal.fundingStatus.tokensMinted = false
    ∧ execute_cancel_proposal sampleConfig
        { proposal := fundedProposal, investments := [], tokenContract := none }
        sampleConfig.admin = .error .proposalNotActive := by decide

/-- C5 (amended).  Cancellation by the creator or the admin succeeds
exactly while the campaign is Active; for a Funded campaign, even an
admin call fails with the not-active state error and leaves no
transition to Cancelled, although the `AccessControl::can_cancel_proposal`
policy of the security module returns true for the admin on a Funded
campaign. -/
theorem cancel_only_active (cfg : Config) (st : CampaignState) (sender : Addr)
    (hauth : sender = st.proposal.creator ∨ sender = cfg.admin) :
    (st.proposal.status = ProposalStatus.funded →
        execute_cancel_proposal cfg st sender = .error .proposalNotActive
        ∧ (sender = cfg.admin → canCancelProposal cfg st.proposal sender = true))
    ∧ (st.proposal.status = ProposalStatus.active →
        execute_cancel_proposal cfg st sender =
          .ok { st with proposal := { st.proposal with status := ProposalStatus.cancelled } }) := by
  have hauth2 : ¬ (st.proposal.creator ≠ sender ∧ cfg.admin ≠ sender) := by
    rcases hauth with h | h <;> simp [h]
  constructor
  · intro hst
    constructor
    · unfold execute_cancel_proposal
      rw [if_neg hauth2, if_pos (by simp [hst])]
    · intro hadm
      unfold canCancelProposal canModifyProposal
      simp [hst, hadm]
  · intro hst
    unfold execute_cancel_proposal
    rw [if_neg hauth2, if_neg (by simp [hst])]

/-- Witness for C5 (amended): the admin on the funded fixture and the
creator on the fresh active fixture. -/
theorem cancel_only_active_witness :
    (fundedProposal.status = ProposalStatus.funded →
        execute_cancel_proposal sampleConfig
            { proposal := fundedProposal, investments := [], tokenContract := none }
            200 = .error .proposalNotActive
        ∧ (200 = sampleConfig.admin →
             canCancelProposal sampleConfig fundedProposal 200 = true))
    ∧ (fundedProposal.status = ProposalStatus.active →
        execute_cancel_proposal sampleConfig
            { proposal := fundedProposal, investments := [], tokenContract := none }
            200 =
          .ok { proposal := { fundedProposal with status := ProposalStatus.cancelled },
                investments := [], tokenContract := none }) :=
  cancel_only_active sampleConfig
    { proposal := fundedProposal, investments := [], tokenContract := none }
    200 (Or.inr (by decide))

/-! ### C2: investment statuses across process_expired_campaigns -/

/-- Counterexample to C2 as stated: on the Scenario B campaign,
`execute_process_expired_proposals` transitions the campaign from Active
to Failed but does not leave the pending investments Pending: both come
out with status Refunded. -/
theorem processExpired_status_changed_cex :
    ∃ st2 : CampaignState,
      execute_process_expired_proposals sampleConfig scenarioBFunded 200 864001
          = .ok (st2, [], 1)
      ∧ st2.proposal.status = ProposalStatus.failed
      ∧ (scenarioBFunded.investments.map (fun inv => inv.status)
           = [InvestmentStatus.pending, InvestmentStatus.pending])
      ∧ (st2.investments.map (fun inv => inv.status)
           = [InvestmentStatus.refunded, InvestmentStatus.refunded]) := by
  refine ⟨{ proposal := { scenarioBFunded.proposal with
              status := ProposalStatus.failed,
              timestamps := { scenarioBFunded.proposal.timestamps with updatedAt := 864001 } },
            investments := markRefunded scenarioBFunded.investments,
            tokenContract := none }, ?_, ?_, ?_, ?_⟩ <;> decide

/-- C2 (amended).  Whenever `process_expired_campaigns` transitions a
campaign from Active to Failed (deadline passed, not funded), it marks
every investment that was Pending as Refunded, leaves every non-Pending
investment record unchanged, preserves the investor, amount, shares and
timestamp of every record, and emits no transfer message. -/
theorem processExpired_marks_pending_refunded (cfg : Config) (st st2 : CampaignState)
    (sender : Addr) (now : Nat) (msgs : List Msg) (n : Nat)
    (h : execute_process_expired_proposals cfg st sender now = .ok (st2, msgs, n))
    (hact : st.proposal.status = ProposalStatus.active)
    (hdl : st.proposal.financialTerms.fundingDeadline < now)
    (hnf : st.proposal.fundingStatus.isFunded = false) :
    st2.proposal.status = ProposalStatus.failed
    ∧ msgs = []
    ∧ st2.investments.length = st.investments.length
    ∧ ∀ i (hi : i < st.investments.length) (hi2 : i < st2.investments.length),
        st2.investments[i].investor = st.investments[i].investor
        ∧ st2.investments[i].amount = st.investments[i].amount
        ∧ st2.investments[i].shares = st.investments[i].shares
        ∧ st2.investments[i].timestamp = st.investments[i].timestamp
        ∧ (st.investments[i].status = InvestmentStatus.pending →
             st2.investments[i].status = InvestmentStatus.refunded)
        ∧ (st.investments[i].status ≠ InvestmentStatus.pending →
             st2.investments[i] = st.investments[i]) := by
  unfold execute_process_expired_proposals at h
  by_cases hs : sender = cfg.admin
  · rw [if_neg (by simp [hs]), if_pos ⟨hact, hdl, hnf⟩] at h
    injection h with h
    injection h with h1 h2
    subst h1
    simp only [Prod.mk.injEq] at h2
    refine ⟨by simp, h2.1.symm, ?_, ?_⟩
    · simp [markRefunded, List.length_map]
    · intro i hi hi2
      simp only [markRefunded, List.getElem_map]
      by_cases hp : st.investments[i].status = InvestmentStatus.pending
      · simp [hp]
      · simp [hp]
  · rw [if_pos (by simp [hs])] at h
    cases h

/-- Witness for C2 (amended): the Scenario B campaign processed by the
admin just after its deadline. -/
theorem processExpired_marks_pending_refunded_witness :
    ∃ st2 : CampaignState,
      execute_process_expired_proposals sampleConfig scenarioBFunded 200 864001
          = .ok (st2, [], 1)
      ∧ st2.proposal.status = ProposalStatus.failed
      ∧ st2.investments.length = scenarioBFunded.investments.length := by
  refine ⟨{ proposal := { scenarioBFunded.proposal with
              status := ProposalStatus.failed,
              timestamps := { scenarioBFunded.proposal.timestamps with updatedAt := 864001 } },
            investments := markRefunded scenarioBFunded.investments,
            tokenContract := none }, ?_, ?_, ?_⟩
  · decide
  · exact (processExpired_marks_pending_refunded sampleConfig scenarioBFunded _ 200 864001 [] 1
      (by decide) (by decide) (by decide) (by decide)).1
  · exact (processExpired_marks_pending_refunded sampleConfig scenarioBFunded _ 200 864001 [] 1
      (by decide) (by decide) (by decide) (by decide)).2.2.1

/-- Witness for C6: a 1,000,000,000 amount at unit price 1,000,000 with
precision factor 1000 yields 1000 shares on both paths, and the theorem
applies to equate them. -/
theorem calculate_shares_agree_witness :
    calculate_shares priceMillionProposal 1000000000 = .ok 1000
    ∧ calculate_shares_precise 1000000000 1000000 1000 = .ok 1000
    ∧ (1000 : Nat) = 1000 :=
  ⟨by decide, by decide,
   calculate_shares_agree priceMillionProposal 1000000000 1000 1000 1000
     (by decide) (by decide)⟩

/-! ### C8: rate limiter window behaviour -/

/-- Within a live window, a run of calls that stays below the limit
increments the stored counter once per call and keeps the window start. -/
theorem runCalls_within (maxOps w t0 : Nat) (hw : t0 + w < 2 ^ 64) :
    ∀ (times : List Nat) (k l : Nat),
      (∀ t ∈ times, t < t0 + w) → k + times.length ≤ maxOps →
      ∃ l2, runCalls (some ⟨t0, k, l⟩) times maxOps w
              = .ok (some ⟨t0, k + times.length, l2⟩) := by
  intro times
  induction times with
  | nil =>
    intro k l _ _
    exact ⟨l, by simp [runCalls]⟩
  | cons t rest ih =>
    intro k l hts hlen
    have ht : t < t0 + w := hts t (by simp)
    have hstep : checkOperationLimit (some ⟨t0, k, l⟩) t maxOps w = .ok ⟨t0, k + 1, t⟩ := by
      unfold checkOperationLimit addU64
      dsimp only
      rw [if_pos hw]
      dsimp only
      rw [if_pos ht, if_neg (by simp at hlen; omega)]
    have hrest := ih (k + 1) t (fun s hs => hts s (by simp [hs])) (by simp at hlen ⊢; omega)
    obtain ⟨l2, hrest⟩ := hrest
    refine ⟨l2, ?_⟩
    unfold runCalls
    rw [hstep]
    dsimp only
    rw [hrest]
    have hlc : (t :: rest).length = rest.length + 1 := rfl
    rw [hlc, show k + (rest.length + 1) = k + 1 + rest.length by omega]

/-- Counterexample to C8 as stated: with a configured per-window limit of
`N = 0`, the first call of an actor (no stored window record) is still
before the end of the window it opens, so by the claim it should fail
with the rate-limit-exceeded error; the code instead accepts it and
stores a counter of 1, because a missing record is created without
consulting the limit. -/
theorem rate_limit_zero_limit_cex :
    checkOperationLimit none 50 0 100 = .ok ⟨50, 1, 50⟩
    ∧ (50 : Nat) < 50 + 100 := by
  constructor
  · decide
  · decide

/-- C8 (amended, limit at least 1).  For a per-window limit `N ≥ 1`:
a sequence of `N` calls starting at `t0`, the later ones before
`t0 + w`, all succeed, ending with a stored counter of `N` in the window
started at `t0`; a further call before the window end with the counter
at `N` fails with the rate-limit-exceeded error; and any call at or
after the window end succeeds and resets the stored record to a counter
of 1 in a new window starting at the call time. -/
theorem rate_limit_window_behavior
    (maxOps w t0 : Nat) (times : List Nat) (tN tR : Nat) (u2 u3 : UserOperations)
    (hN : 1 ≤ maxOps) (hw : t0 + w < 2 ^ 64)
    (hlen : times.length = maxOps - 1) (hts : ∀ t ∈ times, t < t0 + w)
    (h2c : u2.operationCount = maxOps) (h2w : tN < u2.windowStart + w)
    (h2f : u2.windowStart + w < 2 ^ 64)
    (h3w : u3.windowStart + w ≤ tR) (h3f : u3.windowStart + w < 2 ^ 64) :
    (∃ l2, runCalls none (t0 :: times) maxOps w = .ok (some ⟨t0, maxOps, l2⟩))
    ∧ checkOperationLimit (some u2) tN maxOps w = .error (.rateLimitExceeded maxOps w)
    ∧ checkOperationLimit (some u3) tR maxOps w = .ok ⟨tR, 1, tR⟩ := by
  refine ⟨?_, ?_, ?_⟩
  · have hfirst : checkOperationLimit none t0 maxOps w = .ok ⟨t0, 1, t0⟩ := by
      unfold checkOperationLimit
      rfl
    obtain ⟨l2, hrun⟩ := runCalls_within maxOps w t0 hw times 1 t0 hts (by omega)
    refine ⟨l2, ?_⟩
    unfold runCalls
    rw [hfirst]
    dsimp only
    rw [show 1 + times.length = maxOps by omega] at hrun
    exact hrun
  · unfold checkOperationLimit addU64
    dsimp only
    rw [if_pos h2f]
    dsimp only
    rw [if_pos h2w, if_pos (by omega)]
  · unfold checkOperationLimit addU64
    dsimp only
    rw [if_pos h3f]
    dsimp only
    rw [if_neg (by omega)]

/-- Witness for C8 (amended): limit 2 in a 100-second window; calls at 0
and 10 succeed, a call at 20 with the counter at 2 fails, and a call at
100 resets the window. -/
theorem rate_limit_window_behavior_witness :
    (∃ l2, runCalls none [0, 10] 2 100 = .ok (some ⟨0, 2, l2⟩))
    ∧ checkOperationLimit (some ⟨0, 2, 10⟩) 20 2 100 = .error (.rateLimitExceeded 2 100)
    ∧ checkOperationLimit (some ⟨0, 2, 10⟩) 100 2 100 = .ok ⟨100, 1, 100⟩ :=
  rate_limit_window_behavior 2 100 0 [10] 20 100 ⟨0, 2, 10⟩ ⟨0, 2, 10⟩
    (by decide) (by decide) (by decide) (by decide) (by decide) (by decide)
    (by decide) (by decide) (by decide)

/-! ### Distribution loop lemmas (shared by C7 and C10) -/

/-- A successful distribution pass leaves no Pending investment and
emits one mint instruction per previously Pending investment. -/
theorem distributeLoop_ok (invs : List Investment) :
    ∀ (msgs : List Msg) (total count : Nat) invs2 msgs2 total2 count2,
      distributeLoop invs msgs total count = .ok (invs2, msgs2, total2, count2) →
      (∀ inv ∈ invs2, inv.status ≠ InvestmentStatus.pending)
      ∧ invs2.length = invs.length
      ∧ (∃ extra, msgs2 = msgs ++ extra
          ∧ (∀ m ∈ extra, ∃ r a, m = Msg.mintTokens r a)
          ∧ (extra = [] ↔ ∀ inv ∈ invs, inv.status ≠ InvestmentStatus.pending)) := by
  induction invs with
  | nil =>
    intro msgs total count invs2 msgs2 total2 count2 h
    unfold distributeLoop at h
    injection h with h
    simp only [Prod.mk.injEq] at h
    obtain ⟨h1, h2, -⟩ := h
    subst h1
    subst h2
    exact ⟨by simp, rfl, [], by simp, by simp, by simp⟩
  | cons inv rest ih =>
    intro msgs total count invs2 msgs2 total2 count2 h
    unfold distributeLoop at h
    by_cases hp : inv.status = InvestmentStatus.pending
    · rw [if_pos hp] at h
      unfold addU64 at h
      by_cases h1 : total + inv.shares < 2 ^ 64
      · rw [if_pos h1] at h
        dsimp only at h
        by_cases h2 : count + 1 < 2 ^ 64
        · rw [if_pos h2] at h
          dsimp only at h
          cases hrec : distributeLoop rest (msgs ++ [Msg.mintTokens inv.investor inv.shares])
              (total + inv.shares) (count + 1) with
          | error e => rw [hrec] at h; simp at h
          | ok res =>
            obtain ⟨rest2, msgs3, total3, count3⟩ := res
            rw [hrec] at h
            dsimp only at h
            injection h with h
            simp only [Prod.mk.injEq] at h
            obtain ⟨hi2, hm2, -⟩ := h
            obtain ⟨hnp, hlen, extra, hext, hmint, -⟩ :=
              ih (msgs ++ [Msg.mintTokens inv.investor inv.shares])
                (total + inv.shares) (count + 1) rest2 msgs3 total3 count3 hrec
            subst hi2
            subst hm2
            refine ⟨?_, by simp [hlen], Msg.mintTokens inv.investor inv.shares :: extra, ?_, ?_, ?_⟩
            · intro x hx
              rcases List.mem_cons.mp hx with hx | hx
              · subst hx; simp
              · exact hnp x hx
            · simp [hext]
            · intro m hm
              rcases List.mem_cons.mp hm with hm | hm
              · exact ⟨inv.investor, inv.shares, hm⟩
              · exact hmint m hm
            · simp
              exact fun hc => absurd hp hc
        · rw [if_neg h2] at h; simp at h
      · rw [if_neg h1] at h; simp at h
    · rw [if_neg hp] at h
      cases hrec : distributeLoop rest msgs total count with
      | error e => rw [hrec] at h; simp at h
      | ok res =>
        obtain ⟨rest2, msgs3, total3, count3⟩ := res
        rw [hrec] at h
        dsimp only at h
        injection h with h
        simp only [Prod.mk.injEq] at h
        obtain ⟨hi2, hm2, -⟩ := h
        obtain ⟨hnp, hlen, extra, hext, hmint, hempty⟩ :=
          ih msgs total count rest2 msgs3 total3 count3 hrec
        subst hi2
        subst hm2
        refine ⟨?_, by simp [hlen], extra, hext, hmint, ?_⟩
        · intro x hx
          rcases List.mem_cons.mp hx with hx | hx
          · subst hx; exact hp
          · exact hnp x hx
        · rw [hempty]
          constructor
          · intro hall x hx
            rcases List.mem_cons.mp hx with hx | hx
            · subst hx; exact hp
            · exact hall x hx
          · intro hall x hx
            exact hall x (List.mem_cons_of_mem _ hx)

/-- Elimination form of a successful `execute_distribute_tokens` call:
the guards that held, the loop result, the checked fee arithmetic that
did not abort, and the exact shape of the new state and the emitted
messages. -/
theorem distribute_ok_elim (cfg : Config) (st : CampaignState) (sender : Addr) (now : Nat)
    (st2 : CampaignState) (msgs : List Msg)
    (h : execute_distribute_tokens cfg st sender now = .ok (st2, msgs)) :
    ∃ invs2 mints totalD cnt,
      distributeLoop st.investments [] 0 0 = .ok (invs2, mints, totalD, cnt)
      ∧ mints ≠ []
      ∧ ¬ (sender ≠ st.proposal.creator ∧ sender ≠ cfg.admin)
      ∧ st.proposal.fundingStatus.tokensMinted = true
      ∧ st.proposal.fundingStatus.isFunded = true
      ∧ st.tokenContract ≠ none
      ∧ st.investments ≠ []
      ∧ st.proposal.fundingStatus.raisedAmount * cfg.platformFeeBps < 2 ^ 128
      ∧ st.proposal.fundingStatus.raisedAmount * cfg.platformFeeBps / 10000
          ≤ st.proposal.fundingStatus.raisedAmount
      ∧ st2 = { st with
                proposal := { st.proposal with
                              status := ProposalStatus.completed,
                              timestamps := { st.proposal.timestamps with updatedAt := now } },
                investments := invs2 }
      ∧ msgs = mints
          ++ (if 0 < st.proposal.fundingStatus.raisedAmount
                    - st.proposal.fundingStatus.raisedAmount * cfg.platformFeeBps / 10000
              then [Msg.bankSend st.proposal.creator
                      (st.proposal.fundingStatus.raisedAmount
                        - st.proposal.fundingStatus.raisedAmount * cfg.platformFeeBps / 10000)]
              else [])
          ++ (if 0 < st.proposal.fundingStatus.raisedAmount * cfg.platformFeeBps / 10000
              then [Msg.bankSend cfg.admin
                      (st.proposal.fundingStatus.raisedAmount * cfg.platformFeeBps / 10000)]
              else []) := by
  unfold execute_distribute_tokens mulU128 subU128 at h
  by_cases hauth : sender ≠ st.proposal.creator ∧ sender ≠ cfg.admin
  · rw [if_pos hauth] at h; simp at h
  · rw [if_neg hauth] at h
    by_cases htm : st.proposal.fundingStatus.tokensMinted = false
    · rw [if_pos htm] at h; simp at h
    · rw [if_neg htm] at h
      by_cases hf : st.proposal.fundingStatus.isFunded = false
      · rw [if_pos hf] at h; simp at h
      · rw [if_neg hf] at h
        cases htc : st.tokenContract with
        | none => rw [htc] at h; simp at h
        | some addr =>
          rw [htc] at h
          dsimp only at h
          by_cases hinv : st.investments = []
          · rw [if_pos hinv] at h; simp at h
          · rw [if_neg hinv] at h
            cases hloop : distributeLoop st.investments [] 0 0 with
            | error e => rw [hloop] at h; simp at h
            | ok res =>
              obtain ⟨invs2, mints, totalD, cnt⟩ := res
              rw [hloop] at h
              dsimp only at h
              by_cases hm : mints = []
              · rw [if_pos hm] at h; simp at h
              · rw [if_neg hm] at h
                by_cases hmul : st.proposal.fundingStatus.raisedAmount * cfg.platformFeeBps
                    < 2 ^ 128
                · rw [if_pos hmul] at h
                  dsimp only at h
                  by_cases hsub : st.proposal.fundingStatus.raisedAmount * cfg.platformFeeBps
                      / 10000 ≤ st.proposal.fundingStatus.raisedAmount
                  · rw [if_pos hsub] at h
                    dsimp only at h
                    injection h with h
                    simp only [Prod.mk.injEq] at h
                    exact ⟨invs2, mints, totalD, cnt, rfl, hm, hauth,
                      by simp at htm; exact htm, by simp at hf; exact hf,
                      by simp [htc], hinv, hmul, hsub, h.1.symm, h.2.symm⟩
                  · rw [if_neg hsub] at h; simp at h
                · rw [if_neg hmul] at h; simp at h

/-- A distribution pass over a list with no Pending investment changes
nothing and emits nothing. -/
theorem distributeLoop_no_pending (invs : List Investment) :
    ∀ (msgs : List Msg) (total count : Nat),
      (∀ inv ∈ invs, inv.status ≠ InvestmentStatus.pending) →
      distributeLoop invs msgs total count = .ok (invs, msgs, total, count) := by
  induction invs with
  | nil => intro msgs total count _; rfl
  | cons inv rest ih =>
    intro msgs total count hnp
    unfold distributeLoop
    rw [if_neg (hnp inv (by simp))]
    rw [ih msgs total count (fun x hx => hnp x (List.mem_cons_of_mem _ hx))]

/-! ### Invest characterization lemmas (shared by C3 and C4) -/

/-- The record that `recordOf` finds carries the key it was found under. -/
theorem recordOf_investor (invs : List Investment) (sender : Addr) (r : Investment)
    (h : recordOf invs sender = some r) : r.investor = sender := by
  unfold recordOf at h
  have := List.find?_some h
  simpa using this

/-- Appending a fresh record for an absent key makes it the stored
record. -/
theorem recordOf_append_none (invs : List Investment) (sender : Addr) (inv : Investment)
    (hnone : recordOf invs sender = none) (hinv : inv.investor = sender) :
    recordOf (invs ++ [inv]) sender = some inv := by
  induction invs with
  | nil => simp [recordOf, List.find?, hinv]
  | cons a rest ih =>
    by_cases hp : a.investor = sender
    · exfalso
      unfold recordOf at hnone
      rw [List.find?_cons_of_pos _ (by simp [hp])] at hnone
      cases hnone
    · unfold recordOf at hnone ⊢
      rw [List.cons_append, List.find?_cons_of_neg _ (by simp [hp])]
      rw [List.find?_cons_of_neg _ (by simp [hp])] at hnone
      exact ih hnone

/-- Share totals add across list append. -/
theorem sumShares_append (l1 l2 : List Investment) :
    sumShares (l1 ++ l2) = sumShares l1 + sumShares l2 := by
  simp [sumShares]

/-- A successful `INVESTMENTS.update` on a present key adds the amount
and shares into that record, stamps it with the call time, and leaves
the total shares increased by exactly the added shares. -/
theorem updateInvestment_ok_found (sender : Addr) (a sh now : Nat) :
    ∀ (invs : List Investment) (r : Investment) (invs2 : List Investment),
      recordOf invs sender = some r →
      updateInvestment invs sender a sh now = .ok invs2 →
      sumShares invs2 = sumShares invs + sh
      ∧ recordOf invs2 sender = some {
          investor := r.investor, amount := r.amount + a,
          shares := r.shares + sh, timestamp := now, status := r.status } := by
  intro invs
  induction invs with
  | nil =>
    intro r invs2 hr
    simp [recordOf] at hr
  | cons inv rest ih =>
    intro r invs2 hr hu
    unfold updateInvestment at hu
    by_cases hp : inv.investor = sender
    · rw [if_pos hp] at hu
      unfold addU128 addU64 at hu
      by_cases h1 : inv.amount + a < 2 ^ 128
      · rw [if_pos h1] at hu
        dsimp only at hu
        by_cases h2 : inv.shares + sh < 2 ^ 64
        · rw [if_pos h2] at hu
          dsimp only at hu
          injection hu with hu
          subst hu
          have hr2 : r = inv := by
            unfold recordOf at hr
            rw [List.find?_cons_of_pos _ (by simp [hp])] at hr
            injection hr with hr
            exact hr.symm
          subst hr2
          constructor
          · simp only [sumShares, List.map_cons, List.sum_cons]
            omega
          · unfold recordOf
            rw [List.find?_cons_of_pos _ (by simp [hp])]
        · rw [if_neg h2] at hu
          simp at hu
      · rw [if_neg h1] at hu
        simp at hu
    · rw [if_neg hp] at hu
      cases hrec : updateInvestment rest sender a sh now with
      | error e =>
        rw [hrec] at hu
        simp at hu
      | ok rest2 =>
        rw [hrec] at hu
        dsimp only at hu
        injection hu with hu
        subst hu
        have hr2 : recordOf rest sender = some r := by
          unfold recordOf at hr
          rw [List.find?_cons_of_neg _ (by simp [hp])] at hr
          exact hr
        obtain ⟨hs, hrec2⟩ := ih r rest2 hr2 hrec
        constructor
        · simp only [sumShares, List.map_cons, List.sum_cons] at hs ⊢
          omega
        · unfold recordOf at hrec2 ⊢
          rw [List.find?_cons_of_neg _ (by simp [hp])]
          exact hrec2

/-- Elimination form of a successful `execute_invest` call: the guards
that held, the cap check that passed, and the effect on the raised
amount, the share total and the record of the calling investor. -/
theorem invest_ok_elim (cfg : Config) (st : CampaignState) (sender : Addr)
    (amount now : Nat) (st2 : CampaignState)
    (h : execute_invest cfg st sender amount now = .ok st2) :
    st.proposal.status = ProposalStatus.active
    ∧ st.proposal.fundingStatus.isFunded = false
    ∧ amount ≠ 0
    ∧ st.proposal.financialTerms.tokenPrice ≠ 0
    ∧ amount / st.proposal.financialTerms.tokenPrice ≠ 0
    ∧ calculate_current_shares_sold st.proposal
        + castU64 (amount / st.proposal.financialTerms.tokenPrice) < 2 ^ 64
    ∧ calculate_current_shares_sold st.proposal
        + castU64 (amount / st.proposal.financialTerms.tokenPrice)
        ≤ st.proposal.financialTerms.totalShares
    ∧ st2.proposal.financialTerms = st.proposal.financialTerms
    ∧ st2.proposal.fundingStatus.raisedAmount
        = st.proposal.fundingStatus.raisedAmount + amount
    ∧ sumShares st2.investments
        = sumShares st.investments + castU64 (amount / st.proposal.financialTerms.tokenPrice)
    ∧ recordOf st2.investments sender = some {
        investor := sender,
        amount := ((recordOf st.investments sender).map (fun r => r.amount)).getD 0 + amount,
        shares := ((recordOf st.investments sender).map (fun r => r.shares)).getD 0
                   + castU64 (amount / st.proposal.financialTerms.tokenPrice),
        timestamp := now,
        status := ((recordOf st.investments sender).map (fun r => r.status)).getD
                    InvestmentStatus.pending } := by
  unfold execute_invest at h
  by_cases hact : st.proposal.status = ProposalStatus.active
  case neg => rw [if_pos hact] at h; simp at h
  rw [if_neg (by simp [hact])] at h
  by_cases hdl : st.proposal.financialTerms.fundingDeadline < now
  case pos => rw [if_pos hdl] at h; simp at h
  rw [if_neg hdl] at h
  by_cases hfd : st.proposal.fundingStatus.isFunded = true
  case pos => rw [if_pos hfd] at h; simp at h
  rw [if_neg hfd] at h
  have hfd2 : st.proposal.fundingStatus.isFunded = false := by
    cases hv : st.proposal.fundingStatus.isFunded
    · rfl
    · exact absurd hv hfd
  by_cases hz : amount = 0
  case pos => rw [if_pos hz] at h; simp at h
  rw [if_neg hz] at h
  by_cases hmin : amount < st.proposal.financialTerms.minimumInvestment
  case pos => rw [if_pos hmin] at h; simp at h
  rw [if_neg hmin] at h
  cases hcs : calculate_shares st.proposal amount with
  | error e => rw [hcs] at h; simp at h
  | ok shares =>
  rw [hcs] at h
  dsimp only at h
  obtain ⟨hp0, hq0, hsh⟩ := (calculate_shares_ok st.proposal amount shares).mp hcs
  unfold addU64 at h
  by_cases hfit : calculate_current_shares_sold st.proposal + shares < 2 ^ 64
  case neg => rw [if_neg hfit] at h; simp at h
  rw [if_pos hfit] at h
  dsimp only at h
  by_cases hcap : st.proposal.financialTerms.totalShares
      < calculate_current_shares_sold st.proposal + shares
  case pos => rw [if_pos hcap] at h; simp at h
  rw [if_neg hcap] at h
  refine ⟨hact, hfd2, hz, hp0, hq0, hsh ▸ hfit, by rw [hsh]; omega, ?_⟩
  by_cases hlim : recordOf st.investments sender = none
      ∧ 500 ≤ castU32 st.proposal.fundingStatus.investorCount
  case pos => rw [if_pos hlim] at h; simp at h
  rw [if_neg hlim] at h
  cases hrec : recordOf st.investments sender with
  | some r =>
    rw [hrec] at h
    dsimp only at h
    cases hupd : updateInvestment st.investments sender amount shares now with
    | error e => rw [hupd] at h; simp at h
    | ok invs2 =>
      rw [hupd] at h
      dsimp only at h
      obtain ⟨hsum, hrcd⟩ :=
        updateInvestment_ok_found sender amount shares now st.investments r invs2 hrec hupd
      have hri : r.investor = sender := recordOf_investor st.investments sender r hrec
      unfold addU128 at h
      by_cases hra : st.proposal.fundingStatus.raisedAmount + amount < 2 ^ 128
      case neg => rw [if_neg hra] at h; simp at h
      rw [if_pos hra] at h
      dsimp only at h
      by_cases htr : st.proposal.financialTerms.targetAmount
          ≤ st.proposal.fundingStatus.raisedAmount + amount
      · rw [if_pos htr] at h
        by_cases hlk : now + cfg.lockupPeriodSeconds < 2 ^ 64
        case neg => rw [if_neg hlk] at h; simp at h
        rw [if_pos hlk] at h
        dsimp only at h
        injection h with h
        subst h
        refine ⟨rfl, rfl, by rw [hsh]; exact hsum, ?_⟩
        rw [hsh, hrcd]
        simp [hri]
      · rw [if_neg htr] at h
        injection h with h
        subst h
        refine ⟨rfl, rfl, by rw [hsh]; exact hsum, ?_⟩
        rw [hsh, hrcd]
        simp [hri]
  | none =>
    rw [hrec] at h
    dsimp only at h
    by_cases hcnt : st.proposal.fundingStatus.investorCount + 1 < 2 ^ 64
    case neg => rw [if_neg hcnt] at h; simp at h
    rw [if_pos hcnt] at h
    dsimp only at h
    have hsum : sumShares (st.investments ++
        [{ investor := sender, amount := amount, shares := shares,
           timestamp := now, status := InvestmentStatus.pending }])
        = sumShares st.investments + shares := by
      rw [sumShares_append]
      simp [sumShares]
    have hrcd : recordOf (st.investments ++
        [{ investor := sender, amount := amount, shares := shares,
           timestamp := now, status := InvestmentStatus.pending }]) sender
        = some { investor := sender, amount := amount, shares := shares,
                 timestamp := now, status := InvestmentStatus.pending } :=
      recordOf_append_none st.investments sender _ hrec rfl
    unfold addU128 at h
    by_cases hra : st.proposal.fundingStatus.raisedAmount + amount < 2 ^ 128
    case neg => rw [if_neg hra] at h; simp at h
    rw [if_pos hra] at h
    dsimp only at h
    by_cases htr : st.proposal.financialTerms.targetAmount
        ≤ st.proposal.fundingStatus.raisedAmount + amount
    · rw [if_pos htr] at h
      by_cases hlk : now + cfg.lockupPeriodSeconds < 2 ^ 64
      case neg => rw [if_neg hlk] at h; simp at h
      rw [if_pos hlk] at h
      dsimp only at h
      injection h with h
      subst h
      refine ⟨rfl, rfl, by rw [hsh]; exact hsum, ?_⟩
      rw [hsh, hrcd]
      simp
    · rw [if_neg htr] at h
      injection h with h
      subst h
      refine ⟨rfl, rfl, by rw [hsh]; exact hsum, ?_⟩
      rw [hsh, hrcd]
      simp

/-! ### C7: fee split on distribution -/

/-- C7.  Whenever `distribute_tokens` succeeds, the emitted messages are
the mint instructions followed by the creator payout of
`raised_amount - platform_fee` (present exactly when positive) and the
platform fee transfer of `floor(raised_amount * platform_fee_bps / 10000)`
to the admin, present exactly when the fee is non-zero; the checked
multiplication did not overflow, the fee never exceeds `raised_amount`,
and payout plus fee is exactly `raised_amount`. -/
theorem distribute_fee_split (cfg : Config) (st : CampaignState) (sender : Addr) (now : Nat)
    (st2 : CampaignState) (msgs : List Msg)
    (h : execute_distribute_tokens cfg st sender now = .ok (st2, msgs)) :
    ∃ mints,
      (∀ m ∈ mints, ∃ r a, m = Msg.mintTokens r a)
      ∧ msgs = mints
          ++ (if 0 < st.proposal.fundingStatus.raisedAmount
                    - st.proposal.fundingStatus.raisedAmount * cfg.platformFeeBps / 10000
              then [Msg.bankSend st.proposal.creator
                      (st.proposal.fundingStatus.raisedAmount
                        - st.proposal.fundingStatus.raisedAmount * cfg.platformFeeBps / 10000)]
              else [])
          ++ (if 0 < st.proposal.fundingStatus.raisedAmount * cfg.platformFeeBps / 10000
              then [Msg.bankSend cfg.admin
                      (st.proposal.fundingStatus.raisedAmount * cfg.platformFeeBps / 10000)]
              else [])
      ∧ st.proposal.fundingStatus.raisedAmount * cfg.platformFeeBps < 2 ^ 128
      ∧ st.proposal.fundingStatus.raisedAmount * cfg.platformFeeBps / 10000
          ≤ st.proposal.fundingStatus.raisedAmount
      ∧ (st.proposal.fundingStatus.raisedAmount
            - st.proposal.fundingStatus.raisedAmount * cfg.platformFeeBps / 10000)
          + st.proposal.fundingStatus.raisedAmount * cfg.platformFeeBps / 10000
          = st.proposal.fundingStatus.raisedAmount := by
  obtain ⟨invs2, mints, totalD, cnt, hloop, -, -, -, -, -, -, hmul, hsub, -, hmsgs⟩ :=
    distribute_ok_elim cfg st sender now st2 msgs h
  obtain ⟨-, -, extra, hext, hmint, -⟩ :=
    distributeLoop_ok st.investments [] 0 0 invs2 mints totalD cnt hloop
  refine ⟨mints, ?_, hmsgs, hmul, hsub, Nat.sub_add_cancel hsub⟩
  intro m hm
  rw [hext] at hm
  exact hmint m (by simpa using hm)

/-- Witness for C7: distributing the funded Scenario campaign emits one
mint of 5000 shares, a creator payout of 4,875,000,000,000 and a
2.5 percent platform fee of 125,000,000,000, summing to the raise. -/
theorem distribute_fee_split_witness :
    ∃ mints,
      (∀ m ∈ mints, ∃ r a, m = Msg.mintTokens r a)
      ∧ ([Msg.mintTokens 1 5000, Msg.bankSend 100 4875000000000,
           Msg.bankSend 200 125000000000] : List Msg) = mints
          ++ (if 0 < mintedState.proposal.fundingStatus.raisedAmount
                    - mintedState.proposal.fundingStatus.raisedAmount
                        * sampleConfig.platformFeeBps / 10000
              then [Msg.bankSend mintedState.proposal.creator
                      (mintedState.proposal.fundingStatus.raisedAmount
                        - mintedState.proposal.fundingStatus.raisedAmount
                            * sampleConfig.platformFeeBps / 10000)]
              else [])
          ++ (if 0 < mintedState.proposal.fundingStatus.raisedAmount
                    * sampleConfig.platformFeeBps / 10000
              then [Msg.bankSend sampleConfig.admin
                      (mintedState.proposal.fundingStatus.raisedAmount
                        * sampleConfig.platformFeeBps / 10000)]
              else [])
      ∧ mintedState.proposal.fundingStatus.raisedAmount * sampleConfig.platformFeeBps < 2 ^ 128
      ∧ mintedState.proposal.fundingStatus.raisedAmount * sampleConfig.platformFeeBps / 10000
          ≤ mintedState.proposal.fundingStatus.raisedAmount
      ∧ (mintedState.proposal.fundingStatus.raisedAmount
            - mintedState.proposal.fundingStatus.raisedAmount
                * sampleConfig.platformFeeBps / 10000)
          + mintedState.proposal.fundingStatus.raisedAmount
              * sampleConfig.platformFeeBps / 10000
          = mintedState.proposal.fundingStatus.raisedAmount :=
  distribute_fee_split sampleConfig mintedState 100 900000 mintedStateAfter
    [Msg.mintTokens 1 5000, Msg.bankSend 100 4875000000000, Msg.bankSend 200 125000000000]
    (by decide)

/-! ### C10: no double payout after distribution -/

/-- Counterexample to C10 as stated: after a successful distribution of
the funded Scenario campaign, a refund call by the creator fails with
the not-active state error (the campaign is Completed), not with the
no-investments error the claim names. -/
theorem refund_after_distribute_error_cex :
    execute_distribute_tokens sampleConfig mintedState 100 900000
        = .ok (mintedStateAfter,
               [Msg.mintTokens 1 5000, Msg.bankSend 100 4875000000000,
                Msg.bankSend 200 125000000000])
    ∧ execute_refund_investors sampleConfig mintedStateAfter 100 900001
        = .error .proposalNotActive
    ∧ ContractError.proposalNotActive ≠ ContractError.noInvestmentsToRefund := by
  refine ⟨?_, ?_, ?_⟩ <;> decide

/-- C10 (amended).  After one successful `distribute_tokens` call, no
investment on the campaign is still Pending; a subsequent
`distribute_tokens` call by the creator or admin fails with the
no-investments error, and a subsequent `refund_investors` call by the
creator or admin fails with the not-active state error (the campaign is
Completed); both failures emit no transfer and no mint instruction, so
the creator payout and platform fee are emitted at most once and no
investment is both distributed and refunded. -/
theorem distribute_no_double_payout (cfg : Config) (st : CampaignState)
    (sender : Addr) (now : Nat) (st2 : CampaignState) (msgs : List Msg)
    (sender2 : Addr) (now2 : Nat) (sender3 : Addr) (now3 : Nat)
    (h : execute_distribute_tokens cfg st sender now = .ok (st2, msgs))
    (hauth2 : sender2 = st2.proposal.creator ∨ sender2 = cfg.admin)
    (hauth3 : sender3 = st2.proposal.creator ∨ sender3 = cfg.admin) :
    (∀ inv ∈ st2.investments, inv.status ≠ InvestmentStatus.pending)
    ∧ execute_distribute_tokens cfg st2 sender2 now2 = .error .noInvestmentsToRefund
    ∧ execute_refund_investors cfg st2 sender3 now3 = .error .proposalNotActive := by
  obtain ⟨invs2, mints, totalD, cnt, hloop, hm, -, htm, hf, htc, hinv, -, -, hst2, -⟩ :=
    distribute_ok_elim cfg st sender now st2 msgs h
  obtain ⟨hnp, hlen, -⟩ :=
    distributeLoop_ok st.investments [] 0 0 invs2 mints totalD cnt hloop
  have hinvs2 : st2.investments = invs2 := by rw [hst2]
  have htm2 : st2.proposal.fundingStatus.tokensMinted = true := by rw [hst2]; exact htm
  have hf2 : st2.proposal.fundingStatus.isFunded = true := by rw [hst2]; exact hf
  have htc2 : st2.tokenContract = st.tokenContract := by rw [hst2]
  have hstatus : st2.proposal.status = ProposalStatus.completed := by rw [hst2]
  have hnp2 : ∀ inv ∈ st2.investments, inv.status ≠ InvestmentStatus.pending := by
    rw [hinvs2]; exact hnp
  have hinv2 : st2.investments ≠ [] := by
    rw [hinvs2]
    intro hc
    rw [hc] at hlen
    exact hinv (List.length_eq_zero.mp hlen.symm)
  refine ⟨hnp2, ?_, ?_⟩
  · have hauth2b : ¬ (sender2 ≠ st2.proposal.creator ∧ sender2 ≠ cfg.admin) := by
      rcases hauth2 with hh | hh <;> simp [hh]
    unfold execute_distribute_tokens
    rw [if_neg hauth2b]
    rw [if_neg (by simp [htm2])]
    rw [if_neg (by simp [hf2])]
    cases htcv : st.tokenContract with
    | none => exact absurd htcv htc
    | some addr =>
      rw [htc2, htcv]
      dsimp only
      rw [if_neg hinv2]
      rw [distributeLoop_no_pending st2.investments [] 0 0 hnp2]
      dsimp only
      rw [if_pos rfl]
  · have hauth3b : ¬ (sender3 ≠ st2.proposal.creator ∧ sender3 ≠ cfg.admin) := by
      rcases hauth3 with hh | hh <;> simp [hh]
    unfold execute_refund_investors
    rw [if_neg hauth3b]
    rw [hstatus]

/-- Witness for C10 (amended): the distributed Scenario campaign, with
the creator calling both follow-up operations. -/
theorem distribute_no_double_payout_witness :
    (∀ inv ∈ mintedStateAfter.investments, inv.status ≠ InvestmentStatus.pending)
    ∧ execute_distribute_tokens sampleConfig mintedStateAfter 100 900001
        = .error .noInvestmentsToRefund
    ∧ execute_refund_investors sampleConfig mintedStateAfter 100 900001
        = .error .proposalNotActive :=
  distribute_no_double_payout sampleConfig mintedState 100 900000 mintedStateAfter
    [Msg.mintTokens 1 5000, Msg.bankSend 100 4875000000000, Msg.bankSend 200 125000000000]
    100 900001 100 900001 (by decide) (Or.inl (by decide)) (Or.inl (by decide))

/-! ### C1: Scenario B refund workflow -/

/-- C1.  Scenario B end-to-end, evaluated on the code: the two
investments are accepted (raised 1,500,000,000,000) and
`process_expired_campaigns` does set the campaign status to Failed, but
it also marks both investments Refunded without emitting any transfer,
so the subsequent `refund_investors` call fails with the no-investments
error whether the creator or the admin calls it, emits no refund
transfer, and the raised amount stays 1,500,000,000,000 instead of
being reset to zero. -/
theorem scenarioB_refund_after_expiry_fails :
    (execute_invest sampleConfig scenarioState 1 1000000000000 100).isOk = true
    ∧ (execute_invest sampleConfig
        (investStep sampleConfig scenarioState (1, 1000000000000, 100))
        2 500000000000 200).isOk = true
    ∧ scenarioBInvested.proposal.fundingStatus.raisedAmount = 1500000000000
    ∧ execute_process_expired_proposals sampleConfig scenarioBInvested 200 864001
        = .ok (scenarioBProcessed, [], 1)
    ∧ scenarioBProcessed.proposal.status = ProposalStatus.failed
    ∧ (scenarioBProcessed.investments.map (fun inv => inv.status))
        = [InvestmentStatus.refunded, InvestmentStatus.refunded]
    ∧ execute_refund_investors sampleConfig scenarioBProcessed 100 864001
        = .error .noInvestmentsToRefund
    ∧ execute_refund_investors sampleConfig scenarioBProcessed 200 864001
        = .error .noInvestmentsToRefund
    ∧ scenarioBProcessed.proposal.fundingStatus.raisedAmount = 1500000000000 := by
  refine ⟨?_, ?_, ?_, ?_, ?_, ?_, ?_, ?_, ?_⟩ <;> decide

/-! ### C3: accumulation of repeated investments -/

/-- Counterexample to C3 as stated: at unit price 3, investing 5 then 5
(both accepted) leaves the record at (amount 10, shares 2), while a
single accepted investment of 10 leaves it at (amount 10, shares 3):
the final (amount, shares) pairs differ. -/
theorem invest_accumulation_cex :
    (execute_invest sampleConfig priceThreeState 1 5 10).isOk = true
    ∧ (execute_invest sampleConfig seqState1 1 5 20).isOk = true
    ∧ (execute_invest sampleConfig priceThreeState 1 10 10).isOk = true
    ∧ (recordOf seqState2.investments 1).map (fun r => (r.amount, r.shares))
        = some (10, 2)
    ∧ (recordOf combState.investments 1).map (fun r => (r.amount, r.shares))
        = some (10, 3)
    ∧ (some ((10 : Nat), (2 : Nat)) ≠ some ((10 : Nat), (3 : Nat))) := by
  refine ⟨?_, ?_, ?_, ?_, ?_, ?_⟩ <;> decide

/-- C3 (amended).  Investing `a1` then `a2` from the same investor yields
the same final cumulative amount as one investment of `a1 + a2`, but the
final share totals may differ by one: sequential accumulation records
`floor(a1/price) + floor(a2/price)` shares where the single investment
records `floor((a1+a2)/price)`, so the sequential total is at most the
combined total, which exceeds it by at most 1 (no truncation in the
`u64` cast is assumed: `(a1+a2)/price < 2^64`). -/
theorem invest_accumulation (cfg : Config) (st : CampaignState) (i : Addr)
    (a1 a2 now1 now2 now3 : Nat) (st1 st2 st2c : CampaignState)
    (h1 : execute_invest cfg st i a1 now1 = .ok st1)
    (h2 : execute_invest cfg st1 i a2 now2 = .ok st2)
    (hc : execute_invest cfg st i (a1 + a2) now3 = .ok st2c)
    (hbound : (a1 + a2) / st.proposal.financialTerms.tokenPrice < 2 ^ 64) :
    ((recordOf st2.investments i).map (fun r => r.amount)
       = (recordOf st2c.investments i).map (fun r => r.amount))
    ∧ ∃ s s2, (recordOf st2.investments i).map (fun r => r.shares) = some s
        ∧ (recordOf st2c.investments i).map (fun r => r.shares) = some s2
        ∧ s ≤ s2 ∧ s2 ≤ s + 1 := by
  obtain ⟨-, -, -, hp0, -, -, -, hft1, -, -, hrcd1⟩ := invest_ok_elim cfg st i a1 now1 st1 h1
  obtain ⟨-, -, -, -, -, -, -, -, -, -, hrcd2⟩ := invest_ok_elim cfg st1 i a2 now2 st2 h2
  obtain ⟨-, -, -, -, -, -, -, -, -, -, hrcdc⟩ :=
    invest_ok_elim cfg st i (a1 + a2) now3 st2c hc
  rw [hft1] at hrcd2
  rw [hrcd1] at hrcd2
  simp only [Option.map_some', Option.getD_some] at hrcd2 hrcdc
  have h1le : a1 / st.proposal.financialTerms.tokenPrice
      ≤ (a1 + a2) / st.proposal.financialTerms.tokenPrice :=
    Nat.div_le_div_right (Nat.le_add_right a1 a2)
  have h2le : a2 / st.proposal.financialTerms.tokenPrice
      ≤ (a1 + a2) / st.proposal.financialTerms.tokenPrice :=
    Nat.div_le_div_right (Nat.le_add_left a2 a1)
  have hc1 : castU64 (a1 / st.proposal.financialTerms.tokenPrice)
      = a1 / st.proposal.financialTerms.tokenPrice :=
    Nat.mod_eq_of_lt (by omega)
  have hc2 : castU64 (a2 / st.proposal.financialTerms.tokenPrice)
      = a2 / st.proposal.financialTerms.tokenPrice :=
    Nat.mod_eq_of_lt (by omega)
  have hc12 : castU64 ((a1 + a2) / st.proposal.financialTerms.tokenPrice)
      = (a1 + a2) / st.proposal.financialTerms.tokenPrice :=
    Nat.mod_eq_of_lt hbound
  have hsum_le : a1 / st.proposal.financialTerms.tokenPrice
        + a2 / st.proposal.financialTerms.tokenPrice
      ≤ (a1 + a2) / st.proposal.financialTerms.tokenPrice :=
    div_add_div_le a1 a2 st.proposal.financialTerms.tokenPrice
  have hle_sum : (a1 + a2) / st.proposal.financialTerms.tokenPrice
      ≤ a1 / st.proposal.financialTerms.tokenPrice
        + a2 / st.proposal.financialTerms.tokenPrice + 1 :=
    div_add_le_div_succ a1 a2 st.proposal.financialTerms.tokenPrice
  rw [hrcd2, hrcdc]
  simp only [Option.map_some']
  constructor
  · rw [Nat.add_assoc]
  · refine ⟨_, _, rfl, rfl, ?_, ?_⟩
    · rw [hc1, hc2, hc12]
      omega
    · rw [hc1, hc2, hc12]
      omega

/-- Witness for C3 (amended): at unit price 3, sequential investments of
5 and 5 give 2 shares against 3 shares for a single 10, within the
one-share bound. -/
theorem invest_accumulation_witness :
    ((recordOf seqState2.investments 1).map (fun r => r.amount)
       = (recordOf combState.investments 1).map (fun r => r.amount))
    ∧ ∃ s s2, (recordOf seqState2.investments 1).map (fun r => r.shares) = some s
        ∧ (recordOf combState.investments 1).map (fun r => r.shares) = some s2
        ∧ s ≤ s2 ∧ s2 ≤ s + 1 :=
  invest_accumulation sampleConfig priceThreeState 1 5 5 10 20 10
    seqState1 seqState2 combState (by decide) (by decide) (by decide) (by decide)

/-! ### C4: the shares cap across invest sequences -/

/-- A successful invest preserves `SharesInv`, provided the cap leaves
one unit of headroom below `u64::MAX` and the computed share quotient of
the call does not truncate. -/
theorem invest_preserves_sharesInv (cfg : Config) (st st2 : CampaignState)
    (sender : Addr) (amount now : Nat)
    (h : execute_invest cfg st sender amount now = .ok st2)
    (hT : st.proposal.financialTerms.totalShares ≤ 2 ^ 64 - 2)
    (hA : amount / st.proposal.financialTerms.tokenPrice < 2 ^ 64)
    (hI : SharesInv st) :
    SharesInv st2 ∧ st2.proposal.financialTerms = st.proposal.financialTerms := by
  obtain ⟨-, -, -, hp0, -, hfit, hcap, hft, hra, hsum, -⟩ :=
    invest_ok_elim cfg st sender amount now st2 h
  obtain ⟨hI1, hI2, hI3⟩ := hI
  have hsold : calculate_current_shares_sold st.proposal
      = st.proposal.fundingStatus.raisedAmount / st.proposal.financialTerms.tokenPrice := by
    unfold calculate_current_shares_sold castU64
    rw [if_neg hp0]
    exact Nat.mod_eq_of_lt (by omega)
  have hcast : castU64 (amount / st.proposal.financialTerms.tokenPrice)
      = amount / st.proposal.financialTerms.tokenPrice := Nat.mod_eq_of_lt hA
  rw [hsold, hcast] at hcap
  have hdivle := div_add_div_le st.proposal.fundingStatus.raisedAmount amount
    st.proposal.financialTerms.tokenPrice
  have hdivsucc := div_add_le_div_succ st.proposal.fundingStatus.raisedAmount amount
    st.proposal.financialTerms.tokenPrice
  refine ⟨⟨?_, ?_, ?_⟩, hft⟩
  · rw [hft, hra, hsum, hcast]
    omega
  · rw [hft, hra]
    omega
  · rw [hft, hsum, hcast]
    omega

/-- `SharesInv` holds along every fold of invest requests over a state
with the right financial terms, and the terms never change. -/
theorem foldl_invest_sharesInv (cfg : Config) (ft : FinancialTerms)
    (hT : ft.totalShares ≤ 2 ^ 64 - 2) :
    ∀ (reqs : List (Addr × Nat × Nat)) (st : CampaignState),
      st.proposal.financialTerms = ft → SharesInv st →
      (∀ r ∈ reqs, r.2.1 / ft.tokenPrice < 2 ^ 64) →
      SharesInv (List.foldl (investStep cfg) st reqs)
      ∧ (List.foldl (investStep cfg) st reqs).proposal.financialTerms = ft := by
  intro reqs
  induction reqs with
  | nil =>
    intro st hft hI _
    exact ⟨hI, hft⟩
  | cons r rest ih =>
    intro st hft hI hreq
    rw [List.foldl_cons]
    cases hstep : execute_invest cfg st r.1 r.2.1 r.2.2 with
    | error e =>
      have hsame : investStep cfg st r = st := by
        unfold investStep
        rw [hstep]
      rw [hsame]
      exact ih st hft hI (fun x hx => hreq x (by simp [hx]))
    | ok st2 =>
      have hstep2 : investStep cfg st r = st2 := by
        unfold investStep
        rw [hstep]
      rw [hstep2]
      have hA : r.2.1 / st.proposal.financialTerms.tokenPrice < 2 ^ 64 := by
        rw [hft]
        exact hreq r (by simp)
      have hT2 : st.proposal.financialTerms.totalShares ≤ 2 ^ 64 - 2 := by
        rw [hft]
        exact hT
      obtain ⟨hI2, hft2⟩ :=
        invest_preserves_sharesInv cfg st st2 r.1 r.2.1 r.2.2 hstep hT2 hA hI
      exact ih st2 (by rw [hft2, hft]) hI2 (fun x hx => hreq x (by simp [hx]))

/-- Counterexample to C4 as stated: on the unit-price-2 campaign with a
cap of `2^64 - 1` shares, three accepted investments (`2^64 + 1`,
`2^64 - 1`, then `2`) leave the sum of recorded shares at `2^64`, one
above `total_shares`, while the campaign is still Active and the raised
amount is still far below the target: the truncating `as u64` casts in
the cap check let the third investment through. -/
theorem invest_shares_cap_cex :
    (execute_invest sampleConfig hugeSharesState2 3 2 10).isOk = true
    ∧ sumShares (investStep sampleConfig hugeSharesState2 (3, 2, 10)).investments = 2 ^ 64
    ∧ (investStep sampleConfig hugeSharesState2 (3, 2, 10)).proposal.financialTerms.totalShares
        = 2 ^ 64 - 1
    ∧ (investStep sampleConfig hugeSharesState2 (3, 2, 10)).proposal.status
        = ProposalStatus.active
    ∧ (investStep sampleConfig hugeSharesState2 (3, 2, 10)).proposal.fundingStatus.raisedAmount
        < (investStep sampleConfig hugeSharesState2 (3, 2, 10)).proposal.financialTerms.targetAmount := by
  refine ⟨?_, ?_, ?_, ?_, ?_⟩ <;> decide

/-- C4 (amended).  Over every sequence of invest calls on a freshly
created campaign whose cap satisfies `total_shares ≤ u64::MAX - 1` and
whose accepted amounts keep `amount / price` below `2^64` (no
truncation in the `as u64` casts), the sum of the recorded shares never
exceeds `total_shares`; and an investment whose computed shares would
exceed the cap is rejected with the exceeds-available error even while
the raised amount is still strictly below the target.  Without the
truncation side conditions the bound fails (see the counterexample). -/
theorem invest_shares_cap (cfg : Config) (init : CampaignState)
    (reqs : List (Addr × Nat × Nat))
    (hfresh : init.investments = [])
    (hraised : init.proposal.fundingStatus.raisedAmount = 0)
    (hT : init.proposal.financialTerms.totalShares ≤ 2 ^ 64 - 2)
    (hreq : ∀ r ∈ reqs, r.2.1 / init.proposal.financialTerms.tokenPrice < 2 ^ 64)
    (stR : CampaignState) (sender : Addr) (amount now : Nat) (shares soldPlus : Nat)
    (hact : stR.proposal.status = ProposalStatus.active)
    (hdl : ¬ stR.proposal.financialTerms.fundingDeadline < now)
    (hnf : ¬ stR.proposal.fundingStatus.isFunded = true)
    (hz : amount ≠ 0)
    (hmin : ¬ amount < stR.proposal.financialTerms.minimumInvestment)
    (hcs : calculate_shares stR.proposal amount = .ok shares)
    (hfit : addU64 (calculate_current_shares_sold stR.proposal) shares = .ok soldPlus)
    (hover : stR.proposal.financialTerms.totalShares < soldPlus)
    (_hbelow : stR.proposal.fundingStatus.raisedAmount + amount
        < stR.proposal.financialTerms.targetAmount) :
    sumShares (List.foldl (investStep cfg) init reqs).investments
        ≤ init.proposal.financialTerms.totalShares
    ∧ execute_invest cfg stR sender amount now = .error .investmentExceedsAvailable := by
  constructor
  · have hI0 : SharesInv init := by
      unfold SharesInv
      rw [hfresh, hraised]
      simp [sumShares, Nat.zero_div]
    obtain ⟨hIend, hftend⟩ :=
      foldl_invest_sharesInv cfg init.proposal.financialTerms hT reqs init rfl hI0 hreq
    have := hIend.2.2
    rw [hftend] at this
    exact this
  · unfold execute_invest
    rw [if_neg (by simp [hact])]
    rw [if_neg hdl]
    rw [if_neg hnf]
    rw [if_neg hz]
    rw [if_neg hmin]
    rw [hcs]
    dsimp only
    rw [hfit]
    dsimp only
    rw [if_pos hover]

/-- Witness for C4 (amended): Scenario A first investment stays within
the 5000-share cap, and on the unit-price-3 campaign a 500 investment
computing 166 shares against a 100-share cap is rejected while the
raised amount is far below target. -/
theorem invest_shares_cap_witness :
    sumShares (List.foldl (investStep sampleConfig) scenarioState
        [(1, 1000000000000, 100)]).investments
        ≤ scenarioState.proposal.financialTerms.totalShares
    ∧ execute_invest sampleConfig priceThreeState 1 500 10
        = .error .investmentExceedsAvailable :=
  invest_shares_cap sampleConfig scenarioState [(1, 1000000000000, 100)]
    (by decide) (by decide) (by decide) (by decide)
    priceThreeState 1 500 10 166 166
    (by decide) (by decide) (by decide) (by decide) (by decide) (by decide)
    (by decide) (by decide) (by decide)

end CF1
